import Mathlib

/-!
Shallow embedding of `src/logind-poker.py`, a small asyncio client of the
logind session manager.  The embedding models:

* `Device` (the Device Handle): fields `major`, `minor`, `fd` with the
  sentinel `-1` for "no descriptor", exactly as in the Python dataclass;
* the event loop's reader registrations (`loop.add_reader` /
  `loop.remove_reader`) as an explicit list of registered descriptors;
* `os.close` as a fallible call (closing a negative descriptor raises
  `OSError` with `EBADF`);
* the session signal handlers `on_pause_device` / `on_resume_device`;
* session resolution and the acquisition protocol of `main`
  (take-control followed by the take-device loop), with the bus / manager
  behaviour supplied as an oracle and every externally visible action
  recorded in an event trace.

Effects are made explicit: each operation returns the new state, the new
reader set, and the list of events it performed, or an error when the
Python code would raise.
-/

/-- Externally visible actions performed by the program, in order. -/
inductive Ev where
  | addReader (fd : Int)
  | removeReader (fd : Int)
  | osClose (fd : Int)
  | osRead (fd : Int)
  | logEv
  | callTakeControl
  | callTakeDevice (major minor : Int)
  | callPauseDeviceComplete (major minor : Int)
deriving DecidableEq, Repr

/-- An `OSError` raised by an `os.*` call (the only one the model needs is
`EBADF` from closing an invalid descriptor). -/
inductive OSErr where
  | badFd
deriving DecidableEq, Repr

/-- A DBus method-call error (raised by `dbus_fast` when the reply is an
error message). -/
structure DBusErr where
  msg : String
deriving DecidableEq, Repr

/-- The errors a run of the program can end with. `sessionNotFound` is the
`StopIteration` from `next(filter(...))` when no session matches;
`typeError` is iterating over `None`; the others propagate bus and OS
failures. -/
inductive Err where
  | sessionNotFound
  | typeError
  | dbus (e : DBusErr)
  | osErr (e : OSErr)
deriving DecidableEq, Repr

/-- `loop.add_reader fd cb`: registers `fd` with the selector (replacing any
existing callback for `fd`, so the set of registered descriptors gains
`fd`). -/
def addReaderFd (rs : List Int) (fd : Int) : List Int :=
  if fd ∈ rs then rs else fd :: rs

/-- `loop.remove_reader fd`: unregisters `fd`; returns `False` (and does
nothing) when `fd` was not registered, never raising. -/
def removeReaderFd (rs : List Int) (fd : Int) : List Int :=
  rs.erase fd

/-- `os.close fd`: raises `OSError` (`EBADF`) for a negative descriptor. -/
def osCloseCall (fd : Int) : Except OSErr Unit :=
  if fd < 0 then .error .badFd else .ok ()

/-- The `Device` dataclass: identity `(major, minor)` and the current
descriptor, `-1` when none (the dataclass default). -/
structure Device where
  major : Int
  minor : Int
  fd : Int := -1
deriving DecidableEq, Repr

/-- `Device.close`: `loop.remove_reader(self.fd)`, `os.close(self.fd)`,
`self.fd = -1` — in that order, with no guard on `self.fd`. -/
def Device.close (d : Device) (rs : List Int) :
    Except OSErr (Device × List Int × List Ev) :=
  let rs1 := removeReaderFd rs d.fd
  match osCloseCall d.fd with
  | .error e => .error e
  | .ok _ => .ok ({ d with fd := -1 }, rs1,
      [Ev.removeReader d.fd, Ev.osClose d.fd])

/-- `Device.open`: if a descriptor is held (`self.fd != -1`) first
`self.close()`, then store the new descriptor and
`loop.add_reader(fd, self.on_device_data)`. -/
def Device.open (d : Device) (fd : Int) (rs : List Int) :
    Except OSErr (Device × List Int × List Ev) :=
  if d.fd ≠ -1 then
    match d.close rs with
    | .error e => .error e
    | .ok (d1, rs1, tr) =>
        .ok ({ d1 with fd := fd }, addReaderFd rs1 fd, tr ++ [Ev.addReader fd])
  else
    .ok ({ d with fd := fd }, addReaderFd rs fd, [Ev.addReader fd])

/-- `Device.on_device_data`: try `os.read(self.fd, 1024)` and log the data;
on `OSError` log the error and `self.close()`.  The outcome of the `os.read`
is an oracle argument. -/
def Device.on_device_data (d : Device) (rs : List Int)
    (readRes : Except OSErr Unit) :
    Except OSErr (Device × List Int × List Ev) :=
  match readRes with
  | .ok _ => .ok (d, rs, [Ev.osRead d.fd, Ev.logEv])
  | .error _ =>
      match d.close rs with
      | .error e => .error e
      | .ok (d1, rs1, tr) => .ok (d1, rs1, Ev.osRead d.fd :: Ev.logEv :: tr)

/-- The `Session` dataclass, restricted to the fields the claims touch:
the session id string, the controlling tty, and the `_devices` registry. -/
structure Session where
  id : String
  tty : String
  devices : List Device := []
deriving DecidableEq, Repr

/-- `Session.on_pause_device`: log, then
`await self._intf.call_pause_device_complete(major, minor)`; the device
registry and every descriptor are left untouched ("intentionally *not*
closing the fd here"). -/
def Session.on_pause_device (s : Session) (major minor : Int)
    (_tipo : String) : Session × List Ev :=
  (s, [Ev.callPauseDeviceComplete major minor])

/-- The `for device in self._devices` loop of `on_resume_device`: every
device whose `(major, minor)` matches is re-opened with the delivered
descriptor. -/
def resumeLoop (major minor fd : Int) :
    List Device → List Int → Except OSErr (List Device × List Int × List Ev)
  | [], rs => .ok ([], rs, [])
  | d :: ds, rs =>
      if d.major = major ∧ d.minor = minor then
        match d.open fd rs with
        | .error e => .error e
        | .ok (d1, rs1, tr1) =>
            match resumeLoop major minor fd ds rs1 with
            | .error e => .error e
            | .ok (ds1, rs2, tr2) => .ok (d1 :: ds1, rs2, tr1 ++ tr2)
      else
        match resumeLoop major minor fd ds rs with
        | .error e => .error e
        | .ok (ds1, rs2, tr2) => .ok (d :: ds1, rs2, tr2)

/-- `Session.on_resume_device`: log, then open every registered device whose
identity matches the notification's `(major, minor)` with the delivered
descriptor. -/
def Session.on_resume_device (s : Session) (major minor fd : Int)
    (rs : List Int) : Except OSErr (Session × List Int × List Ev) :=
  match resumeLoop major minor fd s.devices rs with
  | .error e => .error e
  | .ok (ds, rs1, tr) => .ok ({ s with devices := ds }, rs1, tr)

/-- `sid.startswith("tty")`: the characters of `"tty"` are a prefix of the
characters of `sid`. -/
def strStartsWith (s pre : String) : Bool :=
  pre.data.isPrefixOf s.data

/-- Whether a listed session matches the selector: by terminal name when the
selector starts with `"tty"`, by session id otherwise
(`if sid.startswith("tty"): ... s.tty == sid ... else ... s.id == sid`). -/
def sessionMatches (sid : String) (s : Session) : Bool :=
  if strStartsWith sid "tty" then s.tty == sid else s.id == sid

/-- `next(filter(...))` over the session listing: the first matching
session, or the `StopIteration` failure (modelled as `sessionNotFound`)
when none matches. -/
def resolveSession (sid : String) (ss : List Session) : Except Err Session :=
  match ss.find? (sessionMatches sid) with
  | some s => .ok s
  | none => .error .sessionNotFound

/-- A filesystem device node as seen through `os.stat`: the path and the
`(os.major, os.minor)` of its `st_rdev`. -/
structure DevNode where
  path : String
  major : Int
  minor : Int
deriving DecidableEq, Repr

/-- The manager's behaviour, as an oracle: the result of the `TakeControl`
call and of each `TakeDevice(major, minor)` call.  `dbus_fast` raises
`DBusError` on an error reply and otherwise returns the out-arguments:
`TakeControl` has none, `TakeDevice` returns `(fd, inactive)`. -/
structure Manager where
  takeControl : Except DBusErr Unit
  takeDevice : Int → Int → Except DBusErr (Int × Bool)

/-- The outcome of a run of `main` past session listing: the event trace,
the device registry, the reader registrations and the final result. -/
structure RunResult where
  trace : List Ev
  devices : List Device
  readers : List Int
  result : Except Err Unit
deriving Repr

/-- The `for device in device_list` loop of `main`: stat the node, call
`TakeDevice`; on success append a fresh `Device(major, minor)` to the
registry and, when the manager reports it active, open it with the returned
descriptor.  A raised `DBusError` propagates out of `main` (there is no
try/except around the loop). -/
def takeDeviceLoop (mgr : Manager) :
    List DevNode → List Device → List Int → List Ev → RunResult
  | [], devs, rs, tr => ⟨tr, devs, rs, .ok ()⟩
  | n :: rest, devs, rs, tr =>
      let tr1 := tr ++ [Ev.callTakeDevice n.major n.minor]
      match mgr.takeDevice n.major n.minor with
      | .error e => ⟨tr1, devs, rs, .error (.dbus e)⟩
      | .ok (fd, inactive) =>
          let d : Device := { major := n.major, minor := n.minor }
          if inactive then
            takeDeviceLoop mgr rest (devs ++ [d]) rs tr1
          else
            match d.open fd rs with
            | .error e => ⟨tr1, devs ++ [d], rs, .error (.osErr e)⟩
            | .ok (d1, rs1, tro) =>
                takeDeviceLoop mgr rest (devs ++ [d1]) rs1 (tr1 ++ tro)

/-- `main` from session resolution onwards: resolve the session, call
`TakeControl(False)` (a raised `DBusError` propagates; the returned value is
`None` and only logged when truthy), then iterate `device_list` — which
raises `TypeError` when it is `None` — taking each device in turn. -/
def mainRun (sid : String) (ss : List Session) (mgr : Manager)
    (deviceList : Option (List DevNode)) : RunResult :=
  match resolveSession sid ss with
  | .error e => ⟨[], [], [], .error e⟩
  | .ok _ =>
      let tr := [Ev.callTakeControl]
      match mgr.takeControl with
      | .error e => ⟨tr, [], [], .error (.dbus e)⟩
      | .ok _ =>
          match deviceList with
          | none => ⟨tr, [], [], .error .typeError⟩
          | some l => takeDeviceLoop mgr l [] [] tr

/-- `argparse` with `--device` declared `action="append"`: with no
occurrence of the flag the attribute keeps its default `None`; otherwise the
occurrences are collected in order. -/
def parseDeviceArgs (flags : List String) : Option (List String) :=
  if flags = [] then none else some flags

/-- A call on a single Device Handle, as the application can issue them:
`open` with a manager-delivered descriptor, or `close`. -/
inductive DevOp where
  | openOp (fd : Int)
  | closeOp
deriving DecidableEq, Repr

/-- One call on the handle, tracking the handle together with the loop's
reader registrations; an error is a raised `OSError`. -/
def stepOp (st : Device × List Int) : DevOp → Except OSErr (Device × List Int)
  | .openOp fd =>
      match st.1.open fd st.2 with
      | .error e => .error e
      | .ok (d, rs, _) => .ok (d, rs)
  | .closeOp =>
      match st.1.close st.2 with
      | .error e => .error e
      | .ok (d, rs, _) => .ok (d, rs)

/-- The states reached after each successive call of a sequence; a raised
error aborts the sequence (the exception propagates). -/
def runOps (st : Device × List Int) : List DevOp → List (Device × List Int)
  | [] => []
  | op :: ops =>
      match stepOp st op with
      | .error _ => []
      | .ok st1 => st1 :: runOps st1 ops

/-- The handle invariant: either no descriptor and no readability watch, or
a real descriptor whose watch is the one registration. -/
def devInv (st : Device × List Int) : Prop :=
  (st.1.fd = -1 ∧ st.2 = []) ∨ (0 ≤ st.1.fd ∧ st.2 = [st.1.fd])

instance (st : Device × List Int) : Decidable (devInv st) := by
  unfold devInv; infer_instance

/-- Number of `TakeDevice` calls recorded in a trace. -/
def countTakeDev (tr : List Ev) : Nat :=
  tr.countP fun ev =>
    match ev with
    | .callTakeDevice _ _ => true
    | _ => false

/-- C9: session resolution returns only a listed session matching the
selector — by terminal name when the selector starts with `"tty"`, by
session id otherwise — and fails with `SessionNotFound` when no listed
session matches. -/
theorem session_resolution (sid : String) (ss : List Session) :
    (∀ s, resolveSession sid ss = .ok s → s ∈ ss ∧
      (if strStartsWith sid "tty" then s.tty = sid else s.id = sid)) ∧
    ((∀ s ∈ ss,
        (if strStartsWith sid "tty" then s.tty ≠ sid else s.id ≠ sid)) →
      resolveSession sid ss = .error Err.sessionNotFound) := by
  constructor
  · intro s hok
    unfold resolveSession at hok
    cases hfind : ss.find? (sessionMatches sid) with
    | none => rw [hfind] at hok; cases hok
    | some s0 =>
        rw [hfind] at hok
        have hs0 : s0 = s := by
          cases hok
          rfl
        subst hs0
        refine ⟨List.mem_of_find?_eq_some hfind, ?_⟩
        have hp : sessionMatches sid s0 = true := List.find?_some hfind
        unfold sessionMatches at hp
        by_cases hs : strStartsWith sid "tty"
        · simp [hs] at hp ⊢
          exact hp
        · simp [hs] at hp ⊢
          exact hp
  · intro hall
    unfold resolveSession
    have hnone : ss.find? (sessionMatches sid) = none := by
      rw [List.find?_eq_none]
      intro s hmem
      have hne := hall s hmem
      unfold sessionMatches
      by_cases hs : strStartsWith sid "tty"
      · simp [hs] at hne ⊢
        exact hne
      · simp [hs] at hne ⊢
        exact hne
    rw [hnone]

theorem session_resolution_witness :
    ((⟨"3", "tty3", []⟩ : Session) ∈ ([⟨"3", "tty3", []⟩] : List Session) ∧
      (if strStartsWith "tty3" "tty"
        then (Session.mk "3" "tty3" []).tty = "tty3"
        else (Session.mk "3" "tty3" []).id = "tty3")) ∧
    resolveSession "tty9" [⟨"3", "tty3", []⟩] = .error Err.sessionNotFound :=
  ⟨(session_resolution "tty3" [⟨"3", "tty3", []⟩]).1 ⟨"3", "tty3", []⟩
      (by rfl),
   (session_resolution "tty9" [⟨"3", "tty3", []⟩]).2 (by decide)⟩

/-- Each successful call preserves the handle invariant, provided `open` is
given a real (non-negative) descriptor. -/
theorem stepOp_preserves_devInv (st st1 : Device × List Int) (op : DevOp)
    (hfd : ∀ fd, op = .openOp fd → 0 ≤ fd) (hinv : devInv st)
    (hstep : stepOp st op = .ok st1) : devInv st1 := by
  cases op with
  | openOp fd =>
      have hfd0 : 0 ≤ fd := hfd fd rfl
      rcases hinv with ⟨h1, h2⟩ | ⟨h1, h2⟩
      · simp [stepOp, Device.open, h1, h2, addReaderFd] at hstep
        subst hstep
        right
        exact ⟨hfd0, rfl⟩
      · have hne : st.1.fd ≠ -1 := by omega
        have hlt : ¬ st.1.fd < 0 := by omega
        simp [stepOp, Device.open, Device.close, osCloseCall, hne, hlt,
          h2, removeReaderFd, addReaderFd, List.erase_cons] at hstep
        subst hstep
        right
        exact ⟨hfd0, rfl⟩
  | closeOp =>
      rcases hinv with ⟨h1, h2⟩ | ⟨h1, h2⟩
      · simp [stepOp, Device.close, osCloseCall, h1] at hstep
      · have hlt : ¬ st.1.fd < 0 := by omega
        simp [stepOp, Device.close, osCloseCall, hlt, h2, removeReaderFd,
          List.erase_cons] at hstep
        subst hstep
        left
        exact ⟨rfl, rfl⟩

/-- The invariant holds in every state reached by a sequence of calls from
an invariant state. -/
theorem runOps_preserves_devInv (ops : List DevOp) (st : Device × List Int)
    (hfd : ∀ fd, DevOp.openOp fd ∈ ops → 0 ≤ fd) (hinv : devInv st) :
    ∀ st1 ∈ runOps st ops, devInv st1 := by
  induction ops generalizing st with
  | nil => intro st1 h; cases h
  | cons op ops ih =>
      intro st1 hmem
      unfold runOps at hmem
      cases hstep : stepOp st op with
      | error e => rw [hstep] at hmem; cases hmem
      | ok st2 =>
          rw [hstep] at hmem
          have hinv2 : devInv st2 :=
            stepOp_preserves_devInv st st2 op
              (fun fd hop => hfd fd (by simp [hop])) hinv hstep
          rcases List.mem_cons.mp hmem with h | h
          · rw [h]; exact hinv2
          · exact ih st2 (fun fd hmem2 => hfd fd (by simp [hmem2])) hinv2 st1 h

/-- C2: starting from a fresh handle (no descriptor, no watch), after every
call of any sequence of `open`/`close` calls the descriptor is present
(`fd ≠ -1`) exactly when its readability watch is the registered one, and
absent exactly when nothing is registered. -/
theorem descriptor_iff_active (major minor : Int) (ops : List DevOp)
    (hfd : ∀ fd, DevOp.openOp fd ∈ ops → 0 ≤ fd) :
    ∀ st ∈ runOps ({ major := major, minor := minor, fd := -1 }, []) ops,
      (st.1.fd ≠ -1 ↔ st.2 = [st.1.fd]) ∧ (st.1.fd = -1 ↔ st.2 = []) := by
  intro st hmem
  have hinv : devInv st :=
    runOps_preserves_devInv ops _ hfd (Or.inl ⟨rfl, rfl⟩) st hmem
  rcases hinv with ⟨h1, h2⟩ | ⟨h1, h2⟩
  · constructor
    · constructor
      · intro h; exact absurd h1 h
      · intro h; rw [h1] at h; rw [h2] at h; cases h
    · exact ⟨fun _ => h2, fun _ => h1⟩
  · have hne : st.1.fd ≠ -1 := by omega
    constructor
    · exact ⟨fun _ => h2, fun _ => hne⟩
    · constructor
      · intro h; exact absurd h hne
      · intro h; rw [h2] at h; cases h

theorem descriptor_iff_active_witness :
    ((Device.mk 13 67 3).fd ≠ -1 ↔ [(3 : Int)] = [(Device.mk 13 67 3).fd]) ∧
    ((Device.mk 13 67 3).fd = -1 ↔ ([(3 : Int)] : List Int) = []) :=
  descriptor_iff_active 13 67
    [DevOp.openOp 5, DevOp.closeOp, DevOp.openOp 7, DevOp.openOp 3,
      DevOp.closeOp]
    (by
      intro fd h
      simp [DevOp.openOp.injEq] at h
      rcases h with h | h | h <;> omega)
    (⟨13, 67, 3⟩, [3]) (by decide)

/-- Opening a freshly constructed handle (no descriptor yet) installs the
delivered descriptor and registers its watch, with no close. -/
theorem open_fresh (major minor fd : Int) (rs : List Int) :
    (Device.mk major minor (-1)).open fd rs =
      .ok (Device.mk major minor fd, addReaderFd rs fd, [Ev.addReader fd]) := by
  simp [Device.open]

/-- The take-device loop only appends to the trace it is given. -/
theorem takeDeviceLoop_trace_extends (mgr : Manager) (l : List DevNode) :
    ∀ devs rs tr, ∃ t, (takeDeviceLoop mgr l devs rs tr).trace = tr ++ t := by
  induction l with
  | nil => intro devs rs tr; exact ⟨[], by simp [takeDeviceLoop]⟩
  | cons n rest ih =>
      intro devs rs tr
      unfold takeDeviceLoop
      cases hv : mgr.takeDevice n.major n.minor with
      | error e => exact ⟨[Ev.callTakeDevice n.major n.minor], by simp⟩
      | ok v =>
          obtain ⟨fd, inactive⟩ := v
          cases inactive with
          | true =>
              simp only [if_true]
              obtain ⟨t, ht⟩ := ih (devs ++ [{ major := n.major, minor := n.minor }])
                rs (tr ++ [Ev.callTakeDevice n.major n.minor])
              exact ⟨Ev.callTakeDevice n.major n.minor :: t, by simp [ht]⟩
          | false =>
              simp only [Bool.false_eq_true, if_false, open_fresh,
                List.append_assoc, List.singleton_append]
              obtain ⟨t, ht⟩ := ih
                (devs ++ [Device.mk n.major n.minor fd]) (addReaderFd rs fd)
                (tr ++ [Ev.callTakeDevice n.major n.minor, Ev.addReader fd])
              refine ⟨Ev.callTakeDevice n.major n.minor ::
                Ev.addReader fd :: t, ?_⟩
              rw [ht]
              simp

/-- Every trace of `mainRun` is either empty (resolution failed) or starts
with the `TakeControl` call; anything after that first event exists only
when the `TakeControl` call succeeded. -/
theorem mainRun_trace_shape (sid : String) (ss : List Session)
    (mgr : Manager) (dl : Option (List DevNode)) :
    (mainRun sid ss mgr dl).trace = [] ∨
    ∃ t, (mainRun sid ss mgr dl).trace = Ev.callTakeControl :: t ∧
      (t ≠ [] → mgr.takeControl = .ok ()) := by
  unfold mainRun
  cases hres : resolveSession sid ss with
  | error e0 => exact Or.inl rfl
  | ok s =>
      cases hctl : mgr.takeControl with
      | error e0 => exact Or.inr ⟨[], rfl, fun h => absurd rfl h⟩
      | ok u =>
          cases u
          cases dl with
          | none => exact Or.inr ⟨[], rfl, fun h => absurd rfl h⟩
          | some l =>
              obtain ⟨t, ht⟩ := takeDeviceLoop_trace_extends mgr l [] []
                [Ev.callTakeControl]
              exact Or.inr ⟨t, by simpa using ht, fun _ => rfl⟩

/-- C1: in every run, a `TakeDevice` request or a descriptor registration
(the handle turning Active) appears in the trace only strictly after the
`TakeControl` call, and only in runs where that call succeeded; so no
Device Handle reaches Active before control of the session is taken. -/
theorem takedevice_only_after_takecontrol (sid : String) (ss : List Session)
    (mgr : Manager) (dl : Option (List DevNode)) (i : Nat) (e : Ev)
    (hget : ((mainRun sid ss mgr dl).trace).get? i = some e)
    (he : (∃ m n, e = Ev.callTakeDevice m n) ∨ ∃ fd, e = Ev.addReader fd) :
    mgr.takeControl = .ok () ∧
    ∃ j, j < i ∧
      ((mainRun sid ss mgr dl).trace).get? j = some Ev.callTakeControl := by
  have hne : e ≠ Ev.callTakeControl := by
    rcases he with ⟨m, n, rfl⟩ | ⟨fd, rfl⟩ <;> intro h <;> cases h
  rcases mainRun_trace_shape sid ss mgr dl with h0 | ⟨t, ht, himp⟩
  · rw [h0] at hget
    cases hget
  · rw [ht] at hget ⊢
    cases i with
    | zero =>
        simp only [List.get?] at hget
        exact absurd (Option.some.inj hget).symm hne
    | succ k =>
        have htne : t ≠ [] := by
          intro h
          rw [h] at hget
          cases hget
        exact ⟨himp htne, 0, Nat.succ_pos k, rfl⟩

theorem takedevice_only_after_takecontrol_witness :
    (Manager.mk (.ok ()) (fun _ _ => .ok (10, false))).takeControl = .ok () ∧
    ∃ j, j < 2 ∧
      ((mainRun "tty3" [⟨"3", "tty3", []⟩]
          ⟨.ok (), fun _ _ => .ok (10, false)⟩
          (some [⟨"/dev/input/event3", 13, 67⟩])).trace).get? j =
        some Ev.callTakeControl :=
  takedevice_only_after_takecontrol "tty3" [⟨"3", "tty3", []⟩]
    ⟨.ok (), fun _ _ => .ok (10, false)⟩
    (some [⟨"/dev/input/event3", 13, 67⟩]) 2 (Ev.addReader 10)
    (by rfl) (Or.inr ⟨10, rfl⟩)

/-- C8 counterexample: with two requested devices and a manager whose
`TakeDevice` errors on the first, the raised `DBusError` aborts `main`
before the second device is ever requested — the failure is not isolated to
the failing device. -/
theorem takedevice_failure_aborts_rest_counterexample :
    ((mainRun "tty3" [⟨"3", "tty3", []⟩]
        ⟨.ok (), fun _ n =>
          if n = 67 then .error ⟨"device not available"⟩
          else .ok (10, false)⟩
        (some [⟨"/dev/input/event3", 13, 67⟩,
          ⟨"/dev/input/event5", 13, 69⟩])).trace =
      [Ev.callTakeControl, Ev.callTakeDevice 13 67]) ∧
    ((mainRun "tty3" [⟨"3", "tty3", []⟩]
        ⟨.ok (), fun _ n =>
          if n = 67 then .error ⟨"device not available"⟩
          else .ok (10, false)⟩
        (some [⟨"/dev/input/event3", 13, 67⟩,
          ⟨"/dev/input/event5", 13, 69⟩])).result =
      .error (.dbus ⟨"device not available"⟩)) ∧
    Ev.callTakeDevice 13 69 ∉
      (mainRun "tty3" [⟨"3", "tty3", []⟩]
        ⟨.ok (), fun _ n =>
          if n = 67 then .error ⟨"device not available"⟩
          else .ok (10, false)⟩
        (some [⟨"/dev/input/event3", 13, 67⟩,
          ⟨"/dev/input/event5", 13, 69⟩])).trace :=
  ⟨rfl, rfl, by decide⟩

/-- The take-device loop on `xs ++ n :: ys`, when the manager accepts every
device of `xs` and rejects `n`: the raised error becomes the result and
exactly one `TakeDevice` call is made per device of `xs` plus the failing
one — none for `ys`. -/
theorem takeDeviceLoop_fail (mgr : Manager) (n : DevNode) (e : DBusErr)
    (ys : List DevNode) (hn : mgr.takeDevice n.major n.minor = .error e)
    (xs : List DevNode) :
    ∀ devs rs tr, (∀ x ∈ xs, ∃ v, mgr.takeDevice x.major x.minor = .ok v) →
      (takeDeviceLoop mgr (xs ++ n :: ys) devs rs tr).result =
        .error (.dbus e) ∧
      countTakeDev (takeDeviceLoop mgr (xs ++ n :: ys) devs rs tr).trace =
        countTakeDev tr + (xs.length + 1) := by
  induction xs with
  | nil =>
      intro devs rs tr _
      constructor
      · simp [takeDeviceLoop, hn]
      · simp [takeDeviceLoop, hn, countTakeDev, List.countP_append]
  | cons x xs ih =>
      intro devs rs tr hxs
      obtain ⟨⟨fd, inactive⟩, hv⟩ := hxs x (by simp)
      simp only [List.cons_append, takeDeviceLoop, hv]
      have hcount : countTakeDev (tr ++ [Ev.callTakeDevice x.major x.minor]) =
          countTakeDev tr + 1 := by
        simp [countTakeDev, List.countP_append]
      cases inactive with
      | true =>
          simp only [if_true]
          have h := ih (devs ++ [{ major := x.major, minor := x.minor }]) rs
            (tr ++ [Ev.callTakeDevice x.major x.minor])
            (fun x' hx' => hxs x' (by simp [hx']))
          rw [hcount] at h
          refine ⟨h.1, ?_⟩
          simp only [List.append_eq]
          rw [h.2]
          simp only [List.length_cons]
          omega
      | false =>
          simp only [Bool.false_eq_true, if_false, open_fresh,
            List.append_assoc, List.singleton_append]
          have h := ih (devs ++ [Device.mk x.major x.minor fd])
            (addReaderFd rs fd)
            (tr ++ [Ev.callTakeDevice x.major x.minor, Ev.addReader fd])
            (fun x' hx' => hxs x' (by simp [hx']))
          have hcount2 : countTakeDev
              (tr ++ [Ev.callTakeDevice x.major x.minor, Ev.addReader fd]) =
              countTakeDev tr + 1 := by
            simp [countTakeDev, List.countP_append]
          rw [hcount2] at h
          refine ⟨h.1, ?_⟩
          simp only [List.append_eq]
          rw [h.2]
          simp only [List.length_cons]
          omega

/-- C8 amended: a `TakeDevice` failure raises the bus error out of `main`,
aborting the whole acquisition — the devices after the failing one are never
requested (one `TakeDevice` call per device before the failure, plus the
failing call, and no more). -/
theorem takedevice_failure_aborts_rest (sid : String) (ss : List Session)
    (mgr : Manager) (s : Session) (xs ys : List DevNode) (n : DevNode)
    (e : DBusErr) (hres : resolveSession sid ss = .ok s)
    (hctl : mgr.takeControl = .ok ())
    (hxs : ∀ x ∈ xs, ∃ v, mgr.takeDevice x.major x.minor = .ok v)
    (hn : mgr.takeDevice n.major n.minor = .error e) :
    (mainRun sid ss mgr (some (xs ++ n :: ys))).result = .error (.dbus e) ∧
    countTakeDev (mainRun sid ss mgr (some (xs ++ n :: ys))).trace =
      xs.length + 1 := by
  unfold mainRun
  rw [hres, hctl]
  have h := takeDeviceLoop_fail mgr n e ys hn xs [] [] [Ev.callTakeControl] hxs
  refine ⟨h.1, ?_⟩
  rw [h.2]
  simp [countTakeDev]

theorem takedevice_failure_aborts_rest_witness :
    ((mainRun "tty3" [⟨"3", "tty3", []⟩]
        ⟨.ok (), fun _ n =>
          if n = 69 then .error ⟨"device not available"⟩
          else .ok (10, false)⟩
        (some ([⟨"/dev/input/event3", 13, 67⟩] ++
          ⟨"/dev/input/event5", 13, 69⟩ :: []))).result =
      .error (.dbus ⟨"device not available"⟩)) ∧
    countTakeDev (mainRun "tty3" [⟨"3", "tty3", []⟩]
        ⟨.ok (), fun _ n =>
          if n = 69 then .error ⟨"device not available"⟩
          else .ok (10, false)⟩
        (some ([⟨"/dev/input/event3", 13, 67⟩] ++
          ⟨"/dev/input/event5", 13, 69⟩ :: []))).trace =
      [(⟨"/dev/input/event3", 13, 67⟩ : DevNode)].length + 1 :=
  takedevice_failure_aborts_rest "tty3" [⟨"3", "tty3", []⟩]
    ⟨.ok (), fun _ n =>
      if n = 69 then .error ⟨"device not available"⟩
      else .ok (10, false)⟩
    ⟨"3", "tty3", []⟩ [⟨"/dev/input/event3", 13, 67⟩]
    [] ⟨"/dev/input/event5", 13, 69⟩ ⟨"device not available"⟩
    (by rfl) rfl
    (by
      intro x hx
      simp only [List.mem_singleton] at hx
      subst hx
      exact ⟨(10, false), rfl⟩)
    rfl

/-- C10: with no `--device` flag `argparse` leaves the device list `None`
(not an empty list), and `main`, after a successful take-control, raises
`TypeError` iterating it — it does not proceed with zero devices. -/
theorem missing_device_flag_raises_typeerror (sid : String)
    (ss : List Session) (mgr : Manager) (s : Session)
    (hres : resolveSession sid ss = .ok s)
    (hctl : mgr.takeControl = .ok ()) :
    parseDeviceArgs [] = none ∧
    (mainRun sid ss mgr none).result = .error Err.typeError ∧
    (mainRun sid ss mgr none).trace = [Ev.callTakeControl] ∧
    (mainRun sid ss mgr none).devices = [] := by
  unfold mainRun
  rw [hres, hctl]
  exact ⟨rfl, rfl, rfl, rfl⟩

theorem missing_device_flag_raises_typeerror_witness :
    parseDeviceArgs [] = none ∧
    (mainRun "tty3" [⟨"3", "tty3", []⟩]
        ⟨.ok (), fun _ _ => .ok (10, false)⟩ none).result =
      .error Err.typeError ∧
    (mainRun "tty3" [⟨"3", "tty3", []⟩]
        ⟨.ok (), fun _ _ => .ok (10, false)⟩ none).trace =
      [Ev.callTakeControl] ∧
    (mainRun "tty3" [⟨"3", "tty3", []⟩]
        ⟨.ok (), fun _ _ => .ok (10, false)⟩ none).devices = [] :=
  missing_device_flag_raises_typeerror "tty3" [⟨"3", "tty3", []⟩]
    ⟨.ok (), fun _ _ => .ok (10, false)⟩ ⟨"3", "tty3", []⟩ (by rfl) rfl

/-- The `for device in self._devices` loop leaves every non-matching device,
the reader set and the trace untouched when no registered device carries the
notified identity. -/
theorem resumeLoop_no_match (major minor fd : Int) (ds : List Device)
    (rs : List Int) (h : ∀ d ∈ ds, ¬(d.major = major ∧ d.minor = minor)) :
    resumeLoop major minor fd ds rs = .ok (ds, rs, []) := by
  induction ds with
  | nil => rfl
  | cons d ds ih =>
      have hd : ¬(d.major = major ∧ d.minor = minor) := h d (by simp)
      have hrest : ∀ d' ∈ ds, ¬(d'.major = major ∧ d'.minor = minor) :=
        fun d' hmem => h d' (by simp [hmem])
      simp only [resumeLoop, if_neg hd, ih hrest]

/-- C3: reactivating a handle that already holds a descriptor first removes
the old descriptor's readability watch and closes it, and only then
registers the new descriptor; the handle ends up holding exactly the new
descriptor. -/
theorem open_closes_old_before_registering_new (d : Device) (fd : Int)
    (rs : List Int) (h : 0 ≤ d.fd) :
    d.open fd rs =
      .ok ({ d with fd := fd }, addReaderFd (removeReaderFd rs d.fd) fd,
        [Ev.removeReader d.fd] ++ [Ev.osClose d.fd] ++ [Ev.addReader fd]) := by
  have hne : d.fd ≠ -1 := by omega
  have hlt : ¬ d.fd < 0 := by omega
  simp [Device.open, Device.close, osCloseCall, hne, hlt]

theorem open_closes_old_before_registering_new_witness :
    Device.open ⟨13, 67, 5⟩ 9 [5] =
      .ok ({ Device.mk 13 67 5 with fd := 9 },
        addReaderFd (removeReaderFd [5] (Device.mk 13 67 5).fd) 9,
        [Ev.removeReader (Device.mk 13 67 5).fd] ++
          [Ev.osClose (Device.mk 13 67 5).fd] ++ [Ev.addReader 9]) :=
  open_closes_old_before_registering_new ⟨13, 67, 5⟩ 9 [5] (by decide)

/-- C4: the pause-device handler issues exactly one
`PauseDeviceComplete(major, minor)` call before returning — its trace is
that single acknowledgment — and the session's device registry, every
descriptor included, is returned unchanged. -/
theorem pause_acks_once_and_preserves_descriptors (s : Session)
    (major minor : Int) (tipo : String) :
    (s.on_pause_device major minor tipo).1 = s ∧
    (s.on_pause_device major minor tipo).2 =
      [Ev.callPauseDeviceComplete major minor] ∧
    ((s.on_pause_device major minor tipo).2).count
      (Ev.callPauseDeviceComplete major minor) = 1 := by
  refine ⟨rfl, rfl, ?_⟩
  simp [Session.on_pause_device]

/-- C5: a pause or resume notification whose `(major, minor)` matches no
registered device leaves the session (devices and descriptors) and the
reader registrations unchanged and raises no error. -/
theorem unknown_identity_notification_ignored (s : Session)
    (major minor fd : Int) (tipo : String) (rs : List Int)
    (h : ∀ d ∈ s.devices, ¬(d.major = major ∧ d.minor = minor)) :
    (s.on_pause_device major minor tipo).1 = s ∧
    s.on_resume_device major minor fd rs = .ok (s, rs, []) := by
  refine ⟨rfl, ?_⟩
  simp [Session.on_resume_device, resumeLoop_no_match major minor fd s.devices rs h]

theorem unknown_identity_notification_ignored_witness :
    (Session.on_pause_device ⟨"3", "tty3", [⟨13, 67, 10⟩]⟩ 226 5 "pause").1 =
      ⟨"3", "tty3", [⟨13, 67, 10⟩]⟩ ∧
    Session.on_resume_device ⟨"3", "tty3", [⟨13, 67, 10⟩]⟩ 226 5 17 [10] =
      .ok (⟨"3", "tty3", [⟨13, 67, 10⟩]⟩, [10], []) :=
  unknown_identity_notification_ignored ⟨"3", "tty3", [⟨13, 67, 10⟩]⟩
    226 5 17 "pause" [10] (by decide)

/-- C6 counterexample: on a handle holding no descriptor (`fd = -1`),
`close` is not a no-op — `os.close(-1)` raises `OSError` (`EBADF`). -/
theorem close_on_missing_descriptor_errors :
    Device.close { major := 13, minor := 67, fd := -1 } [] =
      .error OSErr.badFd := by rfl

/-- C6 amended: `close` on a handle without a descriptor raises `OSError`
(the code unconditionally calls `os.close(self.fd)` and closing `-1`
fails), rather than being a no-op; the program itself never performs such a
call, because `open` invokes `close` only under the guard `self.fd != -1`
(on a descriptor-less handle it just installs the new descriptor). -/
theorem close_without_descriptor_raises (d : Device) (fd : Int)
    (rs : List Int) (h : d.fd = -1) :
    d.close rs = .error OSErr.badFd ∧
    d.open fd rs = .ok ({ d with fd := fd }, addReaderFd rs fd,
      [Ev.addReader fd]) := by
  constructor
  · simp [Device.close, osCloseCall, h]
  · simp [Device.open, h]

theorem close_without_descriptor_raises_witness :
    Device.close ⟨13, 67, -1⟩ [] = .error OSErr.badFd ∧
    Device.open ⟨13, 67, -1⟩ 9 [] =
      .ok ({ Device.mk 13 67 (-1) with fd := 9 }, addReaderFd [] 9,
        [Ev.addReader 9]) :=
  close_without_descriptor_raises ⟨13, 67, -1⟩ 9 [] (by decide)

/-- C7: on an Active handle (a real descriptor, `0 ≤ fd` — the only
condition under which the loop invokes the callback), `on_device_data`
never propagates an error, and when the `os.read` fails it deactivates the
handle: the readability watch is removed, the descriptor closed and
cleared. -/
theorem read_callback_never_raises (d : Device) (rs : List Int)
    (readRes : Except OSErr Unit) (h : 0 ≤ d.fd) :
    (∃ st, d.on_device_data rs readRes = .ok st) ∧
    (∀ e, readRes = .error e →
      d.on_device_data rs readRes =
        .ok ({ d with fd := -1 }, removeReaderFd rs d.fd,
          [Ev.osRead d.fd, Ev.logEv, Ev.removeReader d.fd,
            Ev.osClose d.fd])) := by
  have hlt : ¬ d.fd < 0 := by omega
  cases readRes with
  | ok _ => exact ⟨⟨(d, rs, [Ev.osRead d.fd, Ev.logEv]), rfl⟩,
      fun e he => by cases he⟩
  | error e0 =>
      constructor
      · refine ⟨({ d with fd := -1 }, removeReaderFd rs d.fd,
          [Ev.osRead d.fd, Ev.logEv, Ev.removeReader d.fd,
            Ev.osClose d.fd]), ?_⟩
        simp [Device.on_device_data, Device.close, osCloseCall, hlt]
      · intro e he
        simp [Device.on_device_data, Device.close, osCloseCall, hlt]

theorem read_callback_never_raises_witness :
    (∃ st, Device.on_device_data ⟨13, 67, 5⟩ [5] (.error .badFd) = .ok st) ∧
    (∀ e, (Except.error .badFd : Except OSErr Unit) = .error e →
      Device.on_device_data ⟨13, 67, 5⟩ [5] (.error .badFd) =
        .ok ({ Device.mk 13 67 5 with fd := -1 }, removeReaderFd [5] 5,
          [Ev.osRead 5, Ev.logEv, Ev.removeReader 5, Ev.osClose 5])) :=
  read_callback_never_raises ⟨13, 67, 5⟩ [5] (.error .badFd) (by decide)
